import Mathlib

/-!
Verification development for the drive repository (src/drive_panel.ts).

The definitions below are a shallow embedding of the TypeScript source:
pure computations become Lean functions, HTTP responses become explicit
records, fallible steps return Except, and the JavaScript event-loop
interleaving of the directory-creation memoization is modelled as an
explicit command-driven step relation on the client state.
-/

deriving instance DecidableEq for Except

namespace Drive

/-- ASCII whitespace characters removed by the JavaScript trim used in
normalizeEtag (drive_panel.ts line 28). -/
def isJsSpace (c : Char) : Bool :=
  decide (c = ' ') || decide (c = '\t') || decide (c = '\n') ||
  decide (c = '\r') || decide (c = '\x0b') || decide (c = '\x0c')

/-- JavaScript String.prototype.trim on a list of characters: drop leading
and trailing whitespace. -/
def jsTrim (cs : List Char) : List Char :=
  ((cs.dropWhile isJsSpace).reverse.dropWhile isJsSpace).reverse

/-- JavaScript String.prototype.toLowerCase restricted to ASCII, as used on
hex digests and entity tags in smartSync (drive_panel.ts line 378). -/
def jsToLower (s : String) : String :=
  String.mk (s.data.map Char.toLower)

/-- normalizeEtag from drive_panel.ts lines 26-29: a null or empty header is
null; otherwise every double-quote character is removed and the result is
trimmed, an empty result collapsing to null. -/
def normalizeEtag : Option String → Option String
  | none => none
  | some e =>
    if e = "" then none
    else
      let stripped := String.mk (jsTrim (e.data.filter (fun c => decide (c ≠ '"'))))
      if stripped = "" then none else some stripped

/-- A JavaScript number-or-null value, as stored in RemoteMetadata.size. -/
inductive JsNum where
  | null : JsNum
  | nan : JsNum
  | num : Int → JsNum
  deriving DecidableEq

/-- Accumulate the value of a list of decimal digit characters. -/
def digitsValGo (acc : Nat) : List Char → Nat
  | [] => acc
  | c :: cs => digitsValGo (acc * 10 + (c.toNat - 48)) cs

/-- JavaScript parseInt(s, 10): skip leading whitespace, read an optional
sign and then a maximal run of decimal digits; no digits means NaN. -/
def jsParseInt10 (s : String) : JsNum :=
  let cs := s.data.dropWhile isJsSpace
  let signNeg := match cs with
    | c :: _ => decide (c = '-')
    | [] => false
  let cs2 := match cs with
    | c :: rest => if decide (c = '-') || decide (c = '+') then rest else cs
    | [] => []
  let ds := cs2.takeWhile Char.isDigit
  if ds.isEmpty then JsNum.nan
  else JsNum.num ((if signNeg then (-1 : Int) else 1) * (digitsValGo 0 ds : Int))

/-- The size extraction from drive_panel.ts line 189: a missing or empty
Content-Length header yields null, otherwise the header is parsed in base
ten. -/
def parseSizeHeader : Option String → JsNum
  | none => JsNum.null
  | some s => if s = "" then JsNum.null else jsParseInt10 s

/-- RemoteMetadata from drive_panel.ts lines 41-45. -/
structure RemoteMetadata where
  size : JsNum
  etag : Option String
  lastModified : Option String
  deriving DecidableEq

/-- The relevant fields of a HEAD response. -/
structure HeadResponse where
  status : Nat
  contentLength : Option String
  etag : Option String
  lastModified : Option String
  deriving DecidableEq

/-- isRetryableStatus from drive_panel.ts lines 126-128. -/
def isRetryableStatus (status : Nat) : Bool :=
  decide (status = 408) || decide (status = 425) || decide (status = 429) ||
  decide (500 ≤ status)

/-- The response.ok predicate of the fetch API: status in the 2xx range. -/
def responseOk (status : Nat) : Bool :=
  decide (200 ≤ status) && decide (status ≤ 299)

/-- One attempt of getRemoteMetadata, drive_panel.ts lines 173-193: 404
yields absent, a non-success retryable status throws, any other non-success
status yields absent, and success extracts size, entity tag and
Last-Modified. -/
def getRemoteMetadataAttempt (r : HeadResponse) : Except Unit (Option RemoteMetadata) :=
  if r.status = 404 then Except.ok none
  else if responseOk r.status = false then
    (if isRetryableStatus r.status then Except.error () else Except.ok none)
  else
    Except.ok (some ⟨parseSizeHeader r.contentLength, normalizeEtag r.etag, r.lastModified⟩)

/-- The observable trace of one withRetry invocation: the final result, the
number of attempts made, and the backoff waits (in ms) performed between
attempts, in order. -/
structure RetryTrace (E T : Type) where
  result : Except E T
  attempts : Nat
  waits : List Nat
  deriving DecidableEq

/-- The loop of withRetry, drive_panel.ts lines 130-145, with the remaining
retry budget as fuel. Any thrown error is caught; if budget remains the
loop waits retryDelay times (attempt + 1) and re-runs the operation on the
next attempt index; once the budget is exhausted the last error is
rethrown. -/
def withRetryGo {E T : Type} (d : Nat) (op : Nat → Except E T) : Nat → Nat → RetryTrace E T
  | 0, attempt =>
    (match op attempt with
     | Except.ok v => ⟨Except.ok v, 1, []⟩
     | Except.error e => ⟨Except.error e, 1, []⟩)
  | fuel + 1, attempt =>
    (match op attempt with
     | Except.ok v => ⟨Except.ok v, 1, []⟩
     | Except.error _ =>
       let r := withRetryGo d op fuel (attempt + 1)
       ⟨r.result, r.attempts + 1, d * (attempt + 1) :: r.waits⟩)

/-- withRetry from drive_panel.ts lines 130-145, starting at attempt 0 with
maxRetries additional attempts allowed. -/
def withRetry {E T : Type} (maxRetries d : Nat) (op : Nat → Except E T) : RetryTrace E T :=
  withRetryGo d op maxRetries 0

/-- The error object thrown by one upload attempt, drive_panel.ts lines
218-223: the code builds a distinct message for retryable and
non-retryable statuses. -/
inductive UploadErr where
  | retryable : Nat → UploadErr
  | permanent : Nat → UploadErr
  deriving DecidableEq

/-- Upload success condition, drive_panel.ts line 218: response.ok or
status 201 or status 204. -/
def uploadStatusOk (s : Nat) : Bool :=
  responseOk s || decide (s = 201) || decide (s = 204)

/-- One attempt of upload, drive_panel.ts lines 204-227, as a function of
the PUT status: a failing status throws, labelled retryable or permanent
by isRetryableStatus. -/
def uploadAttempt (s : Nat) : Except UploadErr Unit :=
  if uploadStatusOk s then Except.ok ()
  else if isRetryableStatus s then Except.error (UploadErr.retryable s)
  else Except.error (UploadErr.permanent s)

/-- upload wrapped in withRetry, driven by the PUT status returned at each
attempt index. -/
def uploadWithRetry (maxRetries d : Nat) (statuses : Nat → Nat) : RetryTrace UploadErr Unit :=
  withRetry maxRetries d (fun i => uploadAttempt (statuses i))

/-- getRemoteMetadata wrapped in withRetry, driven by the HEAD response
returned at each attempt index. -/
def getRemoteMetadata (maxRetries d : Nat) (responses : Nat → HeadResponse) :
    RetryTrace Unit (Option RemoteMetadata) :=
  withRetry maxRetries d (fun i => getRemoteMetadataAttempt (responses i))

/-- Collapse every maximal run of slashes to a single slash, tracking
whether the previous kept character was a slash; this is the regex
replacement of slash-runs in drive_panel.ts line 148. -/
def squeezeGo : Bool → List Char → List Char
  | _, [] => []
  | prevSlash, c :: cs =>
    if decide (c = '/') then
      (if prevSlash then squeezeGo true cs else '/' :: squeezeGo true cs)
    else c :: squeezeGo false cs

/-- The mkdir path normalization of drive_panel.ts line 148: collapse runs
of slashes, then strip one trailing slash. -/
def normalizeMkdirPath (s : String) : String :=
  let sq := squeezeGo false s.data
  if sq.getLast? = some '/' then String.mk sq.dropLast else String.mk sq

/-- The outcome of one MKCOL network request: an HTTP status, or a network
error (a rejected fetch promise). -/
inductive MkOutcome where
  | status : Nat → MkOutcome
  | netError : MkOutcome
  deriving DecidableEq

/-- The success statuses of drive_panel.ts line 160: 201, 301, 405, 409. -/
def mkSuccessStatus (out : MkOutcome) : Bool :=
  match out with
  | MkOutcome.status n =>
    decide (n = 201) || decide (n = 301) || decide (n = 405) || decide (n = 409)
  | MkOutcome.netError => false

/-- The promise chain attached to the MKCOL fetch in drive_panel.ts lines
159-163: the then-handler records the path as created on a success status,
and the catch-handler converts any rejection into a plain resolution, so
the settled value carries no error. Returns the new createdDirs list and
the error (if any) observed by whoever awaits the settled promise. -/
def mkdirSettle (createdDirs : List String) (p : String) (out : MkOutcome) :
    List String × Option Unit :=
  let afterThen : List String × Option Unit :=
    match out with
    | MkOutcome.status n =>
      (if mkSuccessStatus (MkOutcome.status n) then p :: createdDirs else createdDirs, none)
    | MkOutcome.netError => (createdDirs, some ())
  (afterThen.1, none)

/-- The phase of one mkdir invocation: parked on the pending promise for a
normalized path, or returned (carrying the error it propagated, if any). -/
inductive InvPhase where
  | waitingOn : String → InvPhase
  | done : Option Unit → InvPhase
  deriving DecidableEq

/-- The mkdir-relevant state of one HarmonyWebDavClient instance together
with the observable network log: createdDirs and pendingDirs are the two
memoization maps of drive_panel.ts lines 108-109, requests logs every
issued MKCOL as (invocation id, normalized path), completions logs every
settled MKCOL, and invs tracks each mkdir invocation. -/
structure MkdirSys where
  createdDirs : List String
  pendingDirs : List String
  requests : List (Nat × String)
  completions : List (String × MkOutcome)
  invs : List (Nat × InvPhase)
  deriving DecidableEq

/-- A fresh client instance: nothing memoized, nothing in flight. -/
def initSys : MkdirSys := ⟨[], [], [], [], []⟩

/-- Scheduler commands: call invokes mkdir (running its synchronous prefix
atomically, as the JavaScript event loop does up to the first await), and
complete settles the in-flight MKCOL for a path with a given outcome. -/
inductive MkCmd where
  | call : Nat → String → MkCmd
  | complete : String → MkOutcome → MkCmd
  deriving DecidableEq

/-- One scheduler step, a direct translation of mkdir (drive_panel.ts lines
147-169). A call first normalizes its path; an empty or already-created
path returns at once; a path with an in-flight request parks the caller on
that promise; otherwise the MKCOL is issued and registered as pending. A
completion settles the pending promise via mkdirSettle, deletes the
pending entry (the finally-handler, line 164) and releases every parked
caller. -/
def mkStep (sys : MkdirSys) : MkCmd → MkdirSys
  | MkCmd.call id rp =>
    if normalizeMkdirPath rp = "" ∨ normalizeMkdirPath rp ∈ sys.createdDirs then
      { sys with invs := (id, InvPhase.done none) :: sys.invs }
    else if normalizeMkdirPath rp ∈ sys.pendingDirs then
      { sys with invs := (id, InvPhase.waitingOn (normalizeMkdirPath rp)) :: sys.invs }
    else
      { sys with
        requests := (id, normalizeMkdirPath rp) :: sys.requests,
        pendingDirs := normalizeMkdirPath rp :: sys.pendingDirs,
        invs := (id, InvPhase.waitingOn (normalizeMkdirPath rp)) :: sys.invs }
  | MkCmd.complete p out =>
    if p ∈ sys.pendingDirs then
      { createdDirs := (mkdirSettle sys.createdDirs p out).1,
        pendingDirs := sys.pendingDirs.filter (fun q => decide (q ≠ p)),
        requests := sys.requests,
        completions := (p, out) :: sys.completions,
        invs := sys.invs.map (fun inv =>
          if inv.2 = InvPhase.waitingOn p then
            (inv.1, InvPhase.done (mkdirSettle sys.createdDirs p out).2)
          else inv) }
    else sys

/-- Run a whole schedule of commands from a given system state. -/
def runCmds (cmds : List MkCmd) (sys : MkdirSys) : MkdirSys :=
  cmds.foldl mkStep sys

/-- Number of MKCOL requests issued for a given normalized path. -/
def countPathRequests (q : String) (sys : MkdirSys) : Nat :=
  sys.requests.countP (fun r => decide (r.2 = q))

/-- Number of MKCOL requests for a path that settled with a success status. -/
def countSuccessCompletions (q : String) (sys : MkdirSys) : Nat :=
  sys.completions.countP (fun c => decide (c.1 = q) && mkSuccessStatus c.2)

/-- Number of MKCOL requests for a path that settled unsuccessfully (a
non-success status or a network error). -/
def countFailedCompletions (q : String) (sys : MkdirSys) : Nat :=
  sys.completions.countP (fun c => decide (c.1 = q) && !(mkSuccessStatus c.2))

/-- 1 when a request for the path is currently in flight, else 0. -/
def pendInd (q : String) (sys : MkdirSys) : Nat :=
  if q ∈ sys.pendingDirs then 1 else 0

/-- Number of MKCOL requests issued by a given mkdir invocation. -/
def countInvRequests (id : Nat) (sys : MkdirSys) : Nat :=
  sys.requests.countP (fun r => decide (r.1 = id))

/-- Number of mkdir calls a schedule performs for a given invocation id. -/
def countInvCalls (id : Nat) (cmds : List MkCmd) : Nat :=
  cmds.countP (fun c =>
    match c with
    | MkCmd.call i _ => decide (i = id)
    | MkCmd.complete _ _ => false)

/-- True when an invocation record has not propagated an error. -/
def invNoErr (inv : Nat × InvPhase) : Bool :=
  match inv.2 with
  | InvPhase.done (some _) => false
  | _ => true

/-- True when no mkdir invocation in the system ever propagated an error. -/
def allNoErr (sys : MkdirSys) : Bool :=
  sys.invs.all invNoErr

/-- The inductive invariant of the mkdir memoization, per normalized path:
the requests issued are exactly the settled ones plus the in-flight one;
a successful settlement implies the path is memoized as created; at most
one request can still succeed or be in flight; and a created path is never
in flight. -/
def SysInv (sys : MkdirSys) : Prop :=
  ∀ q : String,
    countPathRequests q sys =
      countSuccessCompletions q sys + countFailedCompletions q sys + pendInd q sys
    ∧ (0 < countSuccessCompletions q sys → q ∈ sys.createdDirs)
    ∧ countSuccessCompletions q sys + pendInd q sys ≤ 1
    ∧ (q ∈ sys.createdDirs → q ∉ sys.pendingDirs)

/-- The two comparison policies of smartSync (drive_panel.ts line 47). -/
inductive SyncCompareMode where
  | size : SyncCompareMode
  | sizeEtag : SyncCompareMode
  deriving DecidableEq

/-- The optional-chaining read remoteMetadata?.etag of drive_panel.ts line
374 (null and undefined both become none here). -/
def jsEtagOfProbe : Option RemoteMetadata → Option String
  | none => none
  | some m => m.etag

/-- JavaScript truthiness of a string-or-null-or-undefined value: null,
undefined and the empty string are falsy. -/
def truthyStr : Option String → Bool
  | none => false
  | some s => decide (s ≠ "")

/-- The left conjunct of drive_panel.ts line 375: remoteMetadata?.size is
strictly different from null (undefined and NaN both are). -/
def sizeNeNull : Option RemoteMetadata → Bool
  | none => true
  | some m =>
    match m.size with
    | JsNum.null => false
    | _ => true

/-- The right conjunct of drive_panel.ts line 375: remoteMetadata?.size is
strictly equal to task.size (undefined, null and NaN never are). -/
def sizeEqTask (md : Option RemoteMetadata) (ts : Int) : Bool :=
  match md with
  | none => false
  | some m =>
    match m.size with
    | JsNum.num n => decide (n = ts)
    | _ => false

/-- sameSize from drive_panel.ts line 375. -/
def sameSizeCalc (md : Option RemoteMetadata) (ts : Int) : Bool :=
  sizeNeNull md && sizeEqTask md ts

/-- canCompareChecksum from drive_panel.ts line 376: the policy is
size+etag and the probed entity tag is truthy. -/
def canCompareChecksum (mode : SyncCompareMode) (md : Option RemoteMetadata) : Bool :=
  decide (mode = SyncCompareMode.sizeEtag) && truthyStr (jsEtagOfProbe md)

/-- The isSynced decision of drive_panel.ts lines 377-385, given the local
MD5 hex digest (consulted only on the checksum branch). -/
def syncDecision (mode : SyncCompareMode) (md : Option RemoteMetadata) (ts : Int)
    (localHash : String) : Bool :=
  let sameSize := sameSizeCalc md ts
  let sameChecksum :=
    if canCompareChecksum mode md then
      decide (jsToLower localHash = jsToLower ((jsEtagOfProbe md).getD ""))
    else false
  if mode = SyncCompareMode.size then sameSize
  else if canCompareChecksum mode md then sameSize && sameChecksum
  else false

/-- The per-task environment a worker sees: the settled mkdir result (an
error only if mkdir could reject), the metadata probe result after
retries, the MD5 hash of the local file (reading it can fail), and the
upload result after retries. -/
structure TaskEnv where
  mkdirRes : Option Unit
  probe : Except Unit (Option RemoteMetadata)
  md5 : Except Unit String
  upload : Except Unit Unit
  deriving DecidableEq

/-- The three terminal states of one task. -/
inductive TaskOutcome where
  | skippedT : TaskOutcome
  | uploadedT : TaskOutcome
  | failedT : TaskOutcome
  deriving DecidableEq

/-- The worker body for one task, drive_panel.ts lines 367-400: any error
thrown by mkdir, the probe, the local hash, or the upload is caught and
the task fails; the local hash is awaited only when canCompareChecksum
holds; otherwise the decision routes to skip or upload. -/
def processTask (mode : SyncCompareMode) (ts : Int) (env : TaskEnv) : TaskOutcome :=
  match env.mkdirRes with
  | some _ => TaskOutcome.failedT
  | none =>
    match env.probe with
    | Except.error _ => TaskOutcome.failedT
    | Except.ok md =>
      match (if canCompareChecksum mode md then env.md5 else Except.ok "") with
      | Except.error _ => TaskOutcome.failedT
      | Except.ok h =>
        if syncDecision mode md ts h then TaskOutcome.skippedT
        else
          match env.upload with
          | Except.error _ => TaskOutcome.failedT
          | Except.ok _ => TaskOutcome.uploadedT

/-- SyncReport from drive_panel.ts lines 328-334 (elapsed time omitted). -/
structure SyncReport where
  processed : Nat
  uploaded : Nat
  skipped : Nat
  failed : Nat
  deriving DecidableEq

/-- The counter updates of drive_panel.ts lines 387-400: exactly one of
uploaded, skipped, failed is incremented according to the outcome, and
processed is incremented in the finally-block. -/
def tallyOutcome (rep : SyncReport) (o : TaskOutcome) : SyncReport :=
  ⟨rep.processed + 1,
   rep.uploaded + (if o = TaskOutcome.uploadedT then 1 else 0),
   rep.skipped + (if o = TaskOutcome.skippedT then 1 else 0),
   rep.failed + (if o = TaskOutcome.failedT then 1 else 0)⟩

/-- One smartSync run over the planned tasks (each a task size with its
environment). The shared queue hands every task to exactly one worker
(queue.shift is atomic on the event loop), so the aggregate report is the
fold of the per-task tallies. -/
def smartSyncRun (mode : SyncCompareMode) (tasks : List (Int × TaskEnv)) : SyncReport :=
  tasks.foldl (fun rep t => tallyOutcome rep (processTask mode t.1 t.2)) ⟨0, 0, 0, 0⟩

/-- The URL-safe-alphabet translation of drive_panel.ts line 53: dash to
plus, underscore to slash. -/
def b64Translate (s : String) : List Char :=
  s.data.map (fun c => if decide (c = '-') then '+' else if decide (c = '_') then '/' else c)

/-- Value of one standard base64 alphabet character. -/
def b64CharVal (c : Char) : Option Nat :=
  if decide ('A' ≤ c) && decide (c ≤ 'Z') then some (c.toNat - 65)
  else if decide ('a' ≤ c) && decide (c ≤ 'z') then some (c.toNat - 97 + 26)
  else if decide ('0' ≤ c) && decide (c ≤ '9') then some (c.toNat - 48 + 52)
  else if decide (c = '+') then some 62
  else if decide (c = '/') then some 63
  else none

/-- Strict base64 decoding as performed by decodeBase64 of the standard
encoding module: the input is consumed in groups of four characters,
padding may appear only at the very end, and any other character outside
the alphabet (or a leftover group) is an error. -/
def decodeB64Groups : List Char → Except Unit (List Nat)
  | [] => Except.ok []
  | a :: b :: c :: d :: rest =>
    (match b64CharVal a, b64CharVal b with
     | some va, some vb =>
       if decide (c = '=') then
         (if decide (d = '=') ∧ rest = [] then Except.ok [va * 4 + vb / 16]
          else Except.error ())
       else
         (match b64CharVal c with
          | some vc =>
            if decide (d = '=') then
              (if rest = [] then Except.ok [va * 4 + vb / 16, (vb % 16) * 16 + vc / 4]
               else Except.error ())
            else
              (match b64CharVal d with
               | some vd =>
                 (match decodeB64Groups rest with
                  | Except.ok bs =>
                    Except.ok ([va * 4 + vb / 16, (vb % 16) * 16 + vc / 4, (vc % 4) * 64 + vd] ++ bs)
                  | Except.error e => Except.error e)
               | none => Except.error ())
          | none => Except.error ())
     | _, _ => Except.error ())
  | _ => Except.error ()

/-- rcloneReveal from drive_panel.ts lines 49-81, with the AES-CTR
decryption and the UTF-8 text decoding abstracted as opaque fallible
primitives (their mathematics is irrelevant here; only the control flow
of the surrounding try-catch matters). An empty input returns the empty
string; a failed base64 decode, fewer than 16 decoded bytes, a cipher
failure, or a text-decode failure all return the input unchanged; only a
fully successful pipeline returns the decoded plaintext. -/
def rcloneReveal (decryptAesCtr : List Nat → List Nat → Except Unit (List Nat))
    (utf8Decode : List Nat → Except Unit String) (obscured : String) : String :=
  if obscured = "" then ""
  else
    match decodeB64Groups (b64Translate obscured) with
    | Except.error _ => obscured
    | Except.ok ciphertext =>
      if ciphertext.length < 16 then obscured
      else
        match decryptAesCtr (ciphertext.take 16) (ciphertext.drop 16) with
        | Except.error _ => obscured
        | Except.ok plain =>
          match utf8Decode plain with
          | Except.error _ => obscured
          | Except.ok s => s

/-- When every attempt fails, the retry loop runs through its whole budget,
waiting d times (attempt + 1) between attempts, and ends with the last
error. -/
theorem withRetryGo_allFail {E T : Type} (d : Nat) (op : Nat → Except E T) (e : Nat → E)
    (h : ∀ i, op i = Except.error (e i)) :
    ∀ (fuel attempt : Nat), withRetryGo d op fuel attempt =
      ⟨Except.error (e (attempt + fuel)), fuel + 1,
       (List.range fuel).map (fun k => d * (attempt + k + 1))⟩ := by
  intro fuel
  induction fuel with
  | zero =>
    intro attempt
    simp [withRetryGo, h attempt]
  | succ n ih =>
    intro attempt
    simp only [withRetryGo, h attempt]
    rw [ih (attempt + 1), show attempt + 1 + n = attempt + (n + 1) by omega]
    congr 1
    rw [List.range_succ_eq_map, List.map_cons, List.map_map]
    refine congrArg₂ List.cons (by simp) ?_
    refine List.map_congr_left ?_
    intro k _
    simp only [Function.comp_apply, Nat.succ_eq_add_one]
    ring_nf

/-- Claim C3: a retry-wrapped operation that fails on every attempt is
attempted exactly maxRetries + 1 times, waits retryDelay times
(attemptIndex + 1) before each re-attempt, and finally propagates the
error raised by the last attempt. -/
theorem claim_C3_thm {E T : Type} (maxRetries d : Nat) (op : Nat → Except E T) (e : Nat → E)
    (h : ∀ i, op i = Except.error (e i)) :
    withRetry maxRetries d op =
      ⟨Except.error (e maxRetries), maxRetries + 1,
       (List.range maxRetries).map (fun k => d * (k + 1))⟩ := by
  unfold withRetry
  rw [withRetryGo_allFail d op e h maxRetries 0]
  simp

/-- Witness for claim C3 at maxRetries = 2, retryDelay = 600 and an
operation failing with its attempt index: three attempts, waits 600 and
1200, final error 2. -/
theorem claim_C3_wit :
    withRetry 2 600 (fun i => (Except.error i : Except Nat Unit)) =
      ⟨Except.error 2, 3, [600, 1200]⟩ := by
  rw [claim_C3_thm 2 600 _ (fun i => i) (fun _ => rfl)]
  rfl

/-- Claim C2 (recording the code bug): an upload whose PUT receives the
non-retryable status 403 at every attempt, with the default maxRetries = 2
and retryDelay = 600, is attempted three times with backoff waits of 600
and 1200 before the permanent error propagates, although the code itself
labels the error as non-retryable; nothing in withRetry short-circuits
non-retryable failures. -/
theorem claim_C2_thm :
    uploadWithRetry 2 600 (fun _ => 403) =
      ⟨Except.error (UploadErr.permanent 403), 3, [600, 1200]⟩ := by
  rfl

/-- The sync decision on an absent probe result is always upload. -/
theorem syncDecision_absent (mode : SyncCompareMode) (ts : Int) (hash : String) :
    syncDecision mode none ts hash = false := by
  cases mode <;>
    simp [syncDecision, sameSizeCalc, sizeNeNull, sizeEqTask, canCompareChecksum,
      jsEtagOfProbe, truthyStr]

/-- Claim C9: a task whose metadata probe returns absent is never skipped:
the decision is false under every policy, and the worker can only upload
the task or fail it. -/
theorem claim_C9_thm (mode : SyncCompareMode) (ts : Int) (hash : String) (env : TaskEnv) :
    syncDecision mode none ts hash = false
    ∧ (env.probe = Except.ok none → processTask mode ts env ≠ TaskOutcome.skippedT) := by
  refine ⟨syncDecision_absent mode ts hash, ?_⟩
  intro hp
  cases hm : env.mkdirRes with
  | some u => unfold processTask; rw [hm]; simp
  | none =>
    unfold processTask
    rw [hm, hp]
    have hc : canCompareChecksum mode none = false := by
      simp [canCompareChecksum, jsEtagOfProbe, truthyStr]
    cases hu : env.upload <;> simp [hc, syncDecision_absent]

/-- Witness for claim C9: a concrete task with an absent probe and a
successful upload is not skipped. -/
theorem claim_C9_wit :
    processTask SyncCompareMode.size 5 ⟨none, Except.ok none, Except.ok "", Except.ok ()⟩
      ≠ TaskOutcome.skippedT :=
  (claim_C9_thm SyncCompareMode.size 5 ""
    ⟨none, Except.ok none, Except.ok "", Except.ok ()⟩).2 rfl

/-- Folding the per-task tally over any task list adds the number of tasks
to processed and distributes it over the three outcome counters. -/
theorem smartSyncGo_counts (mode : SyncCompareMode) (tasks : List (Int × TaskEnv)) :
    ∀ rep : SyncReport,
      (tasks.foldl (fun r t => tallyOutcome r (processTask mode t.1 t.2)) rep).processed
          = rep.processed + tasks.length
      ∧ (tasks.foldl (fun r t => tallyOutcome r (processTask mode t.1 t.2)) rep).uploaded
          + (tasks.foldl (fun r t => tallyOutcome r (processTask mode t.1 t.2)) rep).skipped
          + (tasks.foldl (fun r t => tallyOutcome r (processTask mode t.1 t.2)) rep).failed
          = rep.uploaded + rep.skipped + rep.failed + tasks.length := by
  induction tasks with
  | nil => intro rep; simp
  | cons t ts ih =>
    intro rep
    obtain ⟨h1, h2⟩ := ih (tallyOutcome rep (processTask mode t.1 t.2))
    simp only [List.foldl_cons, List.length_cons]
    refine ⟨?_, ?_⟩
    · rw [h1]
      cases processTask mode t.1 t.2 <;> simp [tallyOutcome] <;> omega
    · rw [h2]
      cases processTask mode t.1 t.2 <;> simp [tallyOutcome] <;> omega

/-- Claim C5: in every smartSync run each task lands in exactly one of the
three terminal states, and the final report satisfies
processed = uploaded + skipped + failed = number of planned tasks. -/
theorem claim_C5_thm (mode : SyncCompareMode) (tasks : List (Int × TaskEnv)) :
    (smartSyncRun mode tasks).processed = tasks.length
    ∧ (smartSyncRun mode tasks).processed =
        (smartSyncRun mode tasks).uploaded + (smartSyncRun mode tasks).skipped +
        (smartSyncRun mode tasks).failed
    ∧ (∀ (ts : Int) (env : TaskEnv),
        processTask mode ts env = TaskOutcome.skippedT
        ∨ processTask mode ts env = TaskOutcome.uploadedT
        ∨ processTask mode ts env = TaskOutcome.failedT) := by
  obtain ⟨h1, h2⟩ := smartSyncGo_counts mode tasks ⟨0, 0, 0, 0⟩
  simp only [Nat.zero_add] at h1 h2
  unfold smartSyncRun
  refine ⟨h1, by omega, ?_⟩
  intro ts env
  cases hx : processTask mode ts env
  · exact Or.inl rfl
  · exact Or.inr (Or.inl rfl)
  · exact Or.inr (Or.inr rfl)

/-- Claim C4: under size+etag, a task is skipped iff the probe is present
with a truthy entity tag, its size strictly equals the task size, and the
local MD5 digest equals the entity tag up to case; the checksum comparison
is enabled iff an entity tag is present, a present probe without an entity
tag never skips, and when no entity tag is present the local hash is never
consulted (the worker result does not depend on it). -/
theorem claim_C4_thm (md : Option RemoteMetadata) (ts : Int) (hash : String) :
    (syncDecision SyncCompareMode.sizeEtag md ts hash = true ↔
      ∃ m e, md = some m ∧ m.etag = some e ∧ e ≠ "" ∧ m.size = JsNum.num ts ∧
        jsToLower hash = jsToLower e)
    ∧ (canCompareChecksum SyncCompareMode.sizeEtag md = true ↔
      ∃ m e, md = some m ∧ m.etag = some e ∧ e ≠ "")
    ∧ (∀ m, md = some m → m.etag = none →
        syncDecision SyncCompareMode.sizeEtag md ts hash = false)
    ∧ (∀ (mk : Option Unit) (up : Except Unit Unit) (x y : Except Unit String),
        jsEtagOfProbe md = none →
        processTask SyncCompareMode.sizeEtag ts ⟨mk, Except.ok md, x, up⟩ =
        processTask SyncCompareMode.sizeEtag ts ⟨mk, Except.ok md, y, up⟩) := by
  refine ⟨?_, ?_, ?_, ?_⟩
  · cases md with
    | none =>
      simp [syncDecision, canCompareChecksum, jsEtagOfProbe, truthyStr, sameSizeCalc,
        sizeNeNull, sizeEqTask]
    | some m =>
      obtain ⟨sz, et, lm⟩ := m
      cases et with
      | none => simp [syncDecision, canCompareChecksum, jsEtagOfProbe, truthyStr]
      | some e =>
        by_cases he : e = ""
        · subst he
          simp [syncDecision, canCompareChecksum, jsEtagOfProbe, truthyStr]
        · cases sz with
          | null =>
            simp [syncDecision, canCompareChecksum, jsEtagOfProbe, truthyStr,
              sameSizeCalc, sizeNeNull, sizeEqTask, he]
          | nan =>
            simp [syncDecision, canCompareChecksum, jsEtagOfProbe, truthyStr,
              sameSizeCalc, sizeNeNull, sizeEqTask, he]
          | num n =>
            simp [syncDecision, canCompareChecksum, jsEtagOfProbe, truthyStr,
              sameSizeCalc, sizeNeNull, sizeEqTask, he, and_assoc]
  · cases md with
    | none => simp [canCompareChecksum, jsEtagOfProbe, truthyStr]
    | some m =>
      obtain ⟨sz, et, lm⟩ := m
      cases et with
      | none => simp [canCompareChecksum, jsEtagOfProbe, truthyStr]
      | some e => simp [canCompareChecksum, jsEtagOfProbe, truthyStr]
  · intro m hmd het
    subst hmd
    simp [syncDecision, canCompareChecksum, jsEtagOfProbe, truthyStr, het]
  · intro mk up x y hnone
    have hc : canCompareChecksum SyncCompareMode.sizeEtag md = false := by
      simp [canCompareChecksum, hnone, truthyStr]
    cases mk <;> simp [processTask, hc]

/-- Witness for claim C4: a present probe with matching size 10 and entity
tag ABC matches an uppercase-insensitive local digest abc, so the task is
skipped. -/
theorem claim_C4_wit :
    syncDecision SyncCompareMode.sizeEtag (some ⟨JsNum.num 10, some "ABC", none⟩) 10 "abc"
      = true :=
  (claim_C4_thm (some ⟨JsNum.num 10, some "ABC", none⟩) 10 "abc").1.mpr
    ⟨⟨JsNum.num 10, some "ABC", none⟩, "ABC", rfl, rfl, by decide, rfl, by decide⟩

/-- Claim C6: the metadata probe maps 404 to absent, a retryable
non-success status to a raised (retryable) failure, any other non-success
status to absent, and a success response to the extracted metadata, with
size null when the length header is missing. -/
theorem claim_C6_thm (r : HeadResponse) :
    (r.status = 404 → getRemoteMetadataAttempt r = Except.ok none)
    ∧ (responseOk r.status = false → isRetryableStatus r.status = true →
        getRemoteMetadataAttempt r = Except.error ())
    ∧ (r.status ≠ 404 → responseOk r.status = false → isRetryableStatus r.status = false →
        getRemoteMetadataAttempt r = Except.ok none)
    ∧ (responseOk r.status = true →
        getRemoteMetadataAttempt r =
          Except.ok (some ⟨parseSizeHeader r.contentLength, normalizeEtag r.etag, r.lastModified⟩)
        ∧ (r.contentLength = none → parseSizeHeader r.contentLength = JsNum.null)) := by
  refine ⟨?_, ?_, ?_, ?_⟩
  · intro h
    simp [getRemoteMetadataAttempt, h]
  · intro h1 h2
    have h404 : r.status ≠ 404 := by
      intro he
      rw [he] at h2
      exact absurd h2 (by decide)
    simp [getRemoteMetadataAttempt, h404, h1, h2]
  · intro h0 h1 h2
    simp [getRemoteMetadataAttempt, h0, h1, h2]
  · intro h1
    have h404 : r.status ≠ 404 := by
      intro he
      rw [he] at h1
      exact absurd h1 (by decide)
    refine ⟨by simp [getRemoteMetadataAttempt, h404, h1], ?_⟩
    intro hc
    rw [hc]
    rfl

/-- Witness for claim C6 at four concrete HEAD responses: a 404, a
retryable 503, a non-retryable 403, and a 200 carrying size 12 and a
quoted entity tag. -/
theorem claim_C6_wit :
    getRemoteMetadataAttempt ⟨404, none, none, none⟩ = Except.ok none
    ∧ getRemoteMetadataAttempt ⟨503, none, none, none⟩ = Except.error ()
    ∧ getRemoteMetadataAttempt ⟨403, none, none, none⟩ = Except.ok none
    ∧ getRemoteMetadataAttempt ⟨200, some "12", some "\"abc\"", some "Mon"⟩ =
        Except.ok (some ⟨JsNum.num 12, some "abc", some "Mon"⟩) :=
  ⟨(claim_C6_thm ⟨404, none, none, none⟩).1 rfl,
   (claim_C6_thm ⟨503, none, none, none⟩).2.1 (by decide) (by decide),
   (claim_C6_thm ⟨403, none, none, none⟩).2.2.1 (by decide) (by decide) (by decide),
   ((claim_C6_thm ⟨200, some "12", some "\"abc\"", some "Mon"⟩).2.2.2 (by decide)).1.trans
     (by decide)⟩

/-- Claim C7: for every input, if the translated base64 decode succeeds
with fewer than 16 bytes the input is returned unchanged, and a failure of
any pipeline step (base64 decode, cipher, text decode) also returns the
input unchanged; this holds for every possible behaviour of the cipher and
text-decode primitives. -/
theorem claim_C7_thm (dec : List Nat → List Nat → Except Unit (List Nat))
    (u8 : List Nat → Except Unit String) (s : String) :
    (∀ bs, decodeB64Groups (b64Translate s) = Except.ok bs → bs.length < 16 →
      rcloneReveal dec u8 s = s)
    ∧ (decodeB64Groups (b64Translate s) = Except.error () → rcloneReveal dec u8 s = s)
    ∧ (∀ bs, decodeB64Groups (b64Translate s) = Except.ok bs → 16 ≤ bs.length →
        dec (bs.take 16) (bs.drop 16) = Except.error () → rcloneReveal dec u8 s = s)
    ∧ (∀ bs pt, decodeB64Groups (b64Translate s) = Except.ok bs → 16 ≤ bs.length →
        dec (bs.take 16) (bs.drop 16) = Except.ok pt → u8 pt = Except.error () →
        rcloneReveal dec u8 s = s) := by
  by_cases hs : s = ""
  · subst hs
    exact ⟨fun bs hd hl => rfl, fun hd => rfl, fun bs hd hl hdec => rfl,
      fun bs pt hd hl hdec hu => rfl⟩
  · refine ⟨?_, ?_, ?_, ?_⟩
    · intro bs hd hl
      simp [rcloneReveal, hs, hd, hl]
    · intro hd
      simp [rcloneReveal, hs, hd]
    · intro bs hd hl hdec
      have hnl : ¬ bs.length < 16 := by omega
      simp [rcloneReveal, hs, hd, hnl, hdec]
    · intro bs pt hd hl hdec hu
      have hnl : ¬ bs.length < 16 := by omega
      simp [rcloneReveal, hs, hd, hnl, hdec, hu]

/-- Witness for claim C7: the four-character input decodes to three bytes,
fewer than sixteen, so it is returned unchanged whatever the cipher and
decoder primitives do. -/
theorem claim_C7_wit :
    rcloneReveal (fun _ _ => Except.error ()) (fun _ => Except.error ()) "AAAA" = "AAAA" :=
  (claim_C7_thm (fun _ _ => Except.error ()) (fun _ => Except.error ()) "AAAA").1
    [0, 0, 0] (by decide) (by decide)

/-- A list of whitespace characters trims to the empty list. -/
theorem jsTrim_all_space (cs : List Char) (h : ∀ c ∈ cs, isJsSpace c = true) :
    jsTrim cs = [] := by
  unfold jsTrim
  have h1 : cs.dropWhile isJsSpace = [] := List.dropWhile_eq_nil_iff.mpr h
  rw [h1]
  rfl

/-- A header consisting only of double quotes and whitespace normalizes to
an absent entity tag. -/
theorem normalizeEtag_quotes_space (s : String)
    (h : ∀ c ∈ s.data, c = '"' ∨ isJsSpace c = true) :
    normalizeEtag (some s) = none := by
  by_cases hs : s = ""
  · simp [normalizeEtag, hs]
  · simp only [normalizeEtag]
    rw [if_neg hs]
    have hall : ∀ c ∈ s.data.filter (fun c => decide (c ≠ '"')), isJsSpace c = true := by
      intro c hc
      rw [List.mem_filter] at hc
      rcases h c hc.1 with h1 | h1
      · exact absurd h1 (by simpa using hc.2)
      · exact h1
    have ht : jsTrim (s.data.filter (fun c => decide (c ≠ '"'))) = [] :=
      jsTrim_all_space _ hall
    simp only [ne_eq, decide_not] at ht
    simp [ht]

/-- Claim C10: a successful HEAD response whose ETag header holds only
double quotes and whitespace yields metadata with an absent entity tag,
and under the size+etag policy such a task is never skipped, whatever the
reported size and the task size. -/
theorem claim_C10_thm (st : Nat) (cl lm : Option String) (s : String)
    (hok : responseOk st = true) (hq : ∀ c ∈ s.data, c = '"' ∨ isJsSpace c = true) :
    ∃ m, getRemoteMetadataAttempt ⟨st, cl, some s, lm⟩ = Except.ok (some m)
      ∧ m.etag = none
      ∧ ∀ (ts : Int) (hash : String),
          syncDecision SyncCompareMode.sizeEtag (some m) ts hash = false := by
  have h404 : st ≠ 404 := by
    intro he
    rw [he] at hok
    exact absurd hok (by decide)
  refine ⟨⟨parseSizeHeader cl, none, lm⟩, ?_, rfl, ?_⟩
  · simp [getRemoteMetadataAttempt, h404, hok, normalizeEtag_quotes_space s hq]
  · intro ts hash
    simp [syncDecision, canCompareChecksum, jsEtagOfProbe, truthyStr]

/-- Witness for claim C10: a 200 response with matching size 10 and an
ETag of two double quotes is probed to metadata with an absent entity tag
and is never skipped. -/
theorem claim_C10_wit :
    ∃ m, getRemoteMetadataAttempt ⟨200, some "10", some "\"\"", none⟩ = Except.ok (some m)
      ∧ m.etag = none
      ∧ ∀ (ts : Int) (hash : String),
          syncDecision SyncCompareMode.sizeEtag (some m) ts hash = false :=
  claim_C10_thm 200 (some "10") none "\"\"" (by decide) (by decide)

/-- The settled promise records the path as created exactly on a success
status. -/
theorem mkdirSettle_fst (cd : List String) (p : String) (out : MkOutcome) :
    (mkdirSettle cd p out).1 = if mkSuccessStatus out then p :: cd else cd := by
  cases out <;> rfl

/-- The settled promise never carries an error: the catch-handler converts
any rejection into a plain resolution. -/
theorem mkdirSettle_snd (cd : List String) (p : String) (out : MkOutcome) :
    (mkdirSettle cd p out).2 = none := rfl

/-- Counting requests for a path across a newly issued request. -/
theorem countR_cons (q : String) (a : Nat × String) (rq : List (Nat × String)) :
    List.countP (fun r => decide (r.2 = q)) (a :: rq) =
      List.countP (fun r => decide (r.2 = q)) rq + (if a.2 = q then 1 else 0) := by
  rw [List.countP_cons]
  by_cases h1 : a.2 = q <;> simp [h1]

/-- Counting successful completions across a newly settled request. -/
theorem countS_cons (q p : String) (out : MkOutcome) (cp : List (String × MkOutcome)) :
    List.countP (fun c => decide (c.1 = q) && mkSuccessStatus c.2) ((p, out) :: cp) =
      List.countP (fun c => decide (c.1 = q) && mkSuccessStatus c.2) cp +
      (if p = q ∧ mkSuccessStatus out = true then 1 else 0) := by
  rw [List.countP_cons]
  by_cases h1 : p = q <;> by_cases h2 : mkSuccessStatus out = true <;> simp [h1, h2]

/-- Counting failed completions across a newly settled request. -/
theorem countF_cons (q p : String) (out : MkOutcome) (cp : List (String × MkOutcome)) :
    List.countP (fun c => decide (c.1 = q) && !mkSuccessStatus c.2) ((p, out) :: cp) =
      List.countP (fun c => decide (c.1 = q) && !mkSuccessStatus c.2) cp +
      (if p = q ∧ mkSuccessStatus out = false then 1 else 0) := by
  rw [List.countP_cons]
  by_cases h1 : p = q <;> by_cases h2 : mkSuccessStatus out = true <;> simp [h1, h2]

/-- Membership after deleting the settled path from the pending map. -/
theorem mem_filter_ne (q p : String) (pd : List String) :
    (q ∈ pd.filter (fun x => decide (x ≠ p))) ↔ (q ∈ pd ∧ q ≠ p) := by
  rw [List.mem_filter]
  simp

/-- Every scheduler step preserves the mkdir memoization invariant. -/
theorem mkStep_inv (sys : MkdirSys) (c : MkCmd) (h : SysInv sys) : SysInv (mkStep sys c) := by
  obtain ⟨cd, pd, rq, cp, iv⟩ := sys
  cases c with
  | call id rp =>
    by_cases h1 : normalizeMkdirPath rp = "" ∨ normalizeMkdirPath rp ∈ cd
    · have hstep : mkStep ⟨cd, pd, rq, cp, iv⟩ (MkCmd.call id rp) =
          ⟨cd, pd, rq, cp, (id, InvPhase.done none) :: iv⟩ := by
        simp [mkStep, h1]
      rw [hstep]
      exact fun q => h q
    · by_cases h2 : normalizeMkdirPath rp ∈ pd
      · have hstep : mkStep ⟨cd, pd, rq, cp, iv⟩ (MkCmd.call id rp) =
            ⟨cd, pd, rq, cp, (id, InvPhase.waitingOn (normalizeMkdirPath rp)) :: iv⟩ := by
          simp [mkStep, h1, h2]
        rw [hstep]
        exact fun q => h q
      · have hstep : mkStep ⟨cd, pd, rq, cp, iv⟩ (MkCmd.call id rp) =
            ⟨cd, normalizeMkdirPath rp :: pd, (id, normalizeMkdirPath rp) :: rq, cp,
             (id, InvPhase.waitingOn (normalizeMkdirPath rp)) :: iv⟩ := by
          simp [mkStep, h1, h2]
        rw [hstep]
        push_neg at h1
        set np := normalizeMkdirPath rp with hnp
        intro q
        obtain ⟨hA, hB, hE, hD⟩ := h q
        simp only [countPathRequests, countSuccessCompletions, countFailedCompletions,
          pendInd, countR_cons, List.mem_cons] at hA hB hE hD ⊢
        by_cases hq : q = np
        · subst hq
          have hS0 : List.countP
              (fun c => decide (c.1 = np) && mkSuccessStatus c.2) cp = 0 := by
            by_contra hx
            exact h1.2 (hB (Nat.pos_of_ne_zero hx))
          rw [if_neg h2] at hA hE
          have i1 : (if np = np then 1 else 0) = 1 := if_pos rfl
          have imem : (if np = np ∨ np ∈ pd then 1 else 0) = 1 := if_pos (Or.inl rfl)
          refine ⟨?_, hB, ?_, ?_⟩
          · rw [i1, imem]
            omega
          · rw [imem]
            omega
          · intro hc
            exact absurd hc h1.2
        · have i1 : (if np = q then 1 else 0) = 0 := if_neg (fun hh => hq hh.symm)
          have imem : (if q = np ∨ q ∈ pd then 1 else 0) = (if q ∈ pd then 1 else 0) := by
            by_cases hm : q ∈ pd
            · rw [if_pos (Or.inr hm), if_pos hm]
            · rw [if_neg ?side, if_neg hm]
              intro hx
              rcases hx with hx | hx
              · exact hq hx
              · exact hm hx
          refine ⟨?_, hB, ?_, ?_⟩
          · rw [i1, imem]
            omega
          · rw [imem]
            exact hE
          · intro hc hx
            rcases hx with hx | hx
            · exact hq hx
            · exact hD hc hx
  | complete p out =>
    by_cases hp : p ∈ pd
    · have hstep : mkStep ⟨cd, pd, rq, cp, iv⟩ (MkCmd.complete p out) =
          ⟨(mkdirSettle cd p out).1, pd.filter (fun x => decide (x ≠ p)), rq,
           (p, out) :: cp,
           iv.map (fun inv => if inv.2 = InvPhase.waitingOn p then
             (inv.1, InvPhase.done (mkdirSettle cd p out).2) else inv)⟩ := by
        simp [mkStep, hp]
      rw [hstep, mkdirSettle_fst]
      intro q
      obtain ⟨hA, hB, hE, hD⟩ := h q
      simp only [countPathRequests, countSuccessCompletions, countFailedCompletions,
        pendInd, countS_cons, countF_cons, mem_filter_ne] at hA hB hE hD ⊢
      by_cases hq : q = p
      · subst hq
        rw [if_pos hp] at hA hE
        by_cases hs : mkSuccessStatus out = true
        · have i1 : (if q = q ∧ mkSuccessStatus out = true then 1 else 0) = 1 :=
            if_pos ⟨rfl, hs⟩
          have i2 : (if q = q ∧ mkSuccessStatus out = false then 1 else 0) = 0 := by
            rw [if_neg]
            intro hx
            rw [hs] at hx
            cases hx.2
          have i3 : (if q ∈ pd ∧ q ≠ q then 1 else 0) = 0 := by
            rw [if_neg]
            intro hx
            exact hx.2 rfl
          rw [i1, i2, i3]
          refine ⟨by omega, ?_, by omega, ?_⟩
          · intro hx
            rw [if_pos hs]
            exact List.mem_cons_self q cd
          · intro hc hx
            exact hx.2 rfl
        · have hsf : mkSuccessStatus out = false := by
            simpa using hs
          have i1 : (if q = q ∧ mkSuccessStatus out = true then 1 else 0) = 0 := by
            rw [if_neg]
            intro hx
            exact hs hx.2
          have i2 : (if q = q ∧ mkSuccessStatus out = false then 1 else 0) = 1 :=
            if_pos ⟨rfl, hsf⟩
          have i3 : (if q ∈ pd ∧ q ≠ q then 1 else 0) = 0 := by
            rw [if_neg]
            intro hx
            exact hx.2 rfl
          rw [i1, i2, i3]
          refine ⟨by omega, ?_, by omega, ?_⟩
          · intro hx
            rw [if_neg hs]
            exact hB (by omega)
          · intro hc hx
            exact hx.2 rfl
      · have i1 : (if p = q ∧ mkSuccessStatus out = true then 1 else 0) = 0 := by
          rw [if_neg]
          intro hx
          exact hq hx.1.symm
        have i2 : (if p = q ∧ mkSuccessStatus out = false then 1 else 0) = 0 := by
          rw [if_neg]
          intro hx
          exact hq hx.1.symm
        have i3 : (if q ∈ pd ∧ q ≠ p then 1 else 0) = (if q ∈ pd then 1 else 0) := by
          by_cases hm : q ∈ pd
          · rw [if_pos ⟨hm, hq⟩, if_pos hm]
          · rw [if_neg (fun hx => hm hx.1), if_neg hm]
        rw [i1, i2, i3]
        refine ⟨by omega, ?_, by omega, ?_⟩
        · intro hx
          have hcd : q ∈ cd := hB (by omega)
          by_cases hs : mkSuccessStatus out = true
          · rw [if_pos hs]
            exact List.mem_cons_of_mem _ hcd
          · rw [if_neg hs]
            exact hcd
        · intro hc hx
          have hcd : q ∈ cd := by
            by_cases hs : mkSuccessStatus out = true
            · rw [if_pos hs] at hc
              rcases List.mem_cons.mp hc with hcc | hcc
              · exact absurd hcc hq
              · exact hcc
            · rw [if_neg hs] at hc
              exact hc
          exact hD hcd hx.1
    · have hstep : mkStep ⟨cd, pd, rq, cp, iv⟩ (MkCmd.complete p out) =
          ⟨cd, pd, rq, cp, iv⟩ := by
        simp [mkStep, hp]
      rw [hstep]
      exact h

/-- A fresh client satisfies the memoization invariant. -/
theorem initSys_inv : SysInv initSys := by
  intro q
  refine ⟨?_, ?_, ?_, ?_⟩ <;>
    simp [initSys, countPathRequests, countSuccessCompletions, countFailedCompletions, pendInd]

/-- The memoization invariant holds after any schedule. -/
theorem runCmds_inv (cmds : List MkCmd) : ∀ sys : MkdirSys,
    SysInv sys → SysInv (runCmds cmds sys) := by
  induction cmds with
  | nil => exact fun sys h => h
  | cons c cs ih => exact fun sys h => ih (mkStep sys c) (mkStep_inv sys c h)

/-- Claim C1 (amended): in every schedule over one client instance, the
MKCOL requests issued for a normalized path number at most one more than
its unsuccessfully settled creation requests — concurrent callers collapse
onto the single in-flight request, so with no failed creation the count is
at most one — and at most one creation request for a path ever settles
successfully. -/
theorem claim_C1_thm (cmds : List MkCmd) (q : String) :
    countPathRequests q (runCmds cmds initSys) ≤
      countFailedCompletions q (runCmds cmds initSys) + 1
    ∧ countSuccessCompletions q (runCmds cmds initSys) ≤ 1 := by
  obtain ⟨hA, hB, hE, hD⟩ := runCmds_inv cmds initSys initSys_inv q
  have hp : pendInd q (runCmds cmds initSys) = 0 ∨ pendInd q (runCmds cmds initSys) = 1 := by
    unfold pendInd
    split
    · exact Or.inr rfl
    · exact Or.inl rfl
  constructor <;> omega

/-- Counterexample to claim C1 as stated: when the first MKCOL for a path
settles with a failure status (here 500), a later mkdir call for the same
path issues a second MKCOL, so more than one directory-creation request is
observed for that path within one client lifetime. -/
theorem claim_C1_cex :
    ¬ (countPathRequests "a"
        (runCmds [MkCmd.call 0 "a", MkCmd.complete "a" (MkOutcome.status 500),
                  MkCmd.call 1 "a"] initSys) ≤ 1) := by
  decide

/-- A scheduler step never lets an mkdir invocation propagate an error. -/
theorem mkStep_noErr (sys : MkdirSys) (c : MkCmd) (h : allNoErr sys = true) :
    allNoErr (mkStep sys c) = true := by
  obtain ⟨cd, pd, rq, cp, iv⟩ := sys
  simp only [allNoErr] at h
  cases c with
  | call id rp =>
    by_cases h1 : normalizeMkdirPath rp = "" ∨ normalizeMkdirPath rp ∈ cd
    · have hstep : mkStep ⟨cd, pd, rq, cp, iv⟩ (MkCmd.call id rp) =
          ⟨cd, pd, rq, cp, (id, InvPhase.done none) :: iv⟩ := by
        simp [mkStep, h1]
      rw [hstep]
      simp [allNoErr, List.all_cons, h, invNoErr]
    · by_cases h2 : normalizeMkdirPath rp ∈ pd
      · have hstep : mkStep ⟨cd, pd, rq, cp, iv⟩ (MkCmd.call id rp) =
            ⟨cd, pd, rq, cp, (id, InvPhase.waitingOn (normalizeMkdirPath rp)) :: iv⟩ := by
          simp [mkStep, h1, h2]
        rw [hstep]
        simp [allNoErr, List.all_cons, h, invNoErr]
      · have hstep : mkStep ⟨cd, pd, rq, cp, iv⟩ (MkCmd.call id rp) =
            ⟨cd, normalizeMkdirPath rp :: pd, (id, normalizeMkdirPath rp) :: rq, cp,
             (id, InvPhase.waitingOn (normalizeMkdirPath rp)) :: iv⟩ := by
          simp [mkStep, h1, h2]
        rw [hstep]
        simp [allNoErr, List.all_cons, h, invNoErr]
  | complete p out =>
    by_cases hp : p ∈ pd
    · have hstep : mkStep ⟨cd, pd, rq, cp, iv⟩ (MkCmd.complete p out) =
          ⟨(mkdirSettle cd p out).1, pd.filter (fun x => decide (x ≠ p)), rq,
           (p, out) :: cp,
           iv.map (fun inv => if inv.2 = InvPhase.waitingOn p then
             (inv.1, InvPhase.done (mkdirSettle cd p out).2) else inv)⟩ := by
        simp [mkStep, hp]
      rw [hstep]
      simp only [allNoErr, List.all_map]
      rw [List.all_eq_true] at h ⊢
      intro x hx
      by_cases hw : x.2 = InvPhase.waitingOn p
      · simp [hw, mkdirSettle_snd, invNoErr]
      · simp only [Function.comp_apply, if_neg hw]
        exact h x hx
    · have hstep : mkStep ⟨cd, pd, rq, cp, iv⟩ (MkCmd.complete p out) =
          ⟨cd, pd, rq, cp, iv⟩ := by
        simp [mkStep, hp]
      rw [hstep]
      simpa [allNoErr] using h

/-- No invocation ever propagates an error, whatever the schedule. -/
theorem runCmds_noErr (cmds : List MkCmd) : ∀ sys : MkdirSys,
    allNoErr sys = true → allNoErr (runCmds cmds sys) = true := by
  induction cmds with
  | nil => exact fun sys h => h
  | cons c cs ih => exact fun sys h => ih (mkStep sys c) (mkStep_noErr sys c h)

/-- One scheduler step adds at most one request attributed to a given
invocation, and only when that step is the invocation of mkdir itself. -/
theorem mkStep_invReq (sys : MkdirSys) (c : MkCmd) (idq : Nat) :
    countInvRequests idq (mkStep sys c) ≤ countInvRequests idq sys +
      countInvCalls idq [c] := by
  obtain ⟨cd, pd, rq, cp, iv⟩ := sys
  cases c with
  | call id rp =>
    have hcalls : countInvCalls idq [MkCmd.call id rp] = (if id = idq then 1 else 0) := by
      by_cases hx : id = idq <;> simp [countInvCalls, hx]
    rw [hcalls]
    by_cases h1 : normalizeMkdirPath rp = "" ∨ normalizeMkdirPath rp ∈ cd
    · have hstep : mkStep ⟨cd, pd, rq, cp, iv⟩ (MkCmd.call id rp) =
          ⟨cd, pd, rq, cp, (id, InvPhase.done none) :: iv⟩ := by
        simp [mkStep, h1]
      rw [hstep]
      exact Nat.le_add_right _ _
    · by_cases h2 : normalizeMkdirPath rp ∈ pd
      · have hstep : mkStep ⟨cd, pd, rq, cp, iv⟩ (MkCmd.call id rp) =
            ⟨cd, pd, rq, cp, (id, InvPhase.waitingOn (normalizeMkdirPath rp)) :: iv⟩ := by
          simp [mkStep, h1, h2]
        rw [hstep]
        exact Nat.le_add_right _ _
      · have hstep : mkStep ⟨cd, pd, rq, cp, iv⟩ (MkCmd.call id rp) =
            ⟨cd, normalizeMkdirPath rp :: pd, (id, normalizeMkdirPath rp) :: rq, cp,
             (id, InvPhase.waitingOn (normalizeMkdirPath rp)) :: iv⟩ := by
          simp [mkStep, h1, h2]
        rw [hstep]
        simp only [countInvRequests, List.countP_cons]
        by_cases hx : id = idq <;> simp [hx]
  | complete p out =>
    have hcalls : countInvCalls idq [MkCmd.complete p out] = 0 := by
      simp [countInvCalls]
    rw [hcalls]
    by_cases hp : p ∈ pd
    · have hstep : mkStep ⟨cd, pd, rq, cp, iv⟩ (MkCmd.complete p out) =
          ⟨(mkdirSettle cd p out).1, pd.filter (fun x => decide (x ≠ p)), rq,
           (p, out) :: cp,
           iv.map (fun inv => if inv.2 = InvPhase.waitingOn p then
             (inv.1, InvPhase.done (mkdirSettle cd p out).2) else inv)⟩ := by
        simp [mkStep, hp]
      rw [hstep]
      exact Nat.le_refl _
    · have hstep : mkStep ⟨cd, pd, rq, cp, iv⟩ (MkCmd.complete p out) =
          ⟨cd, pd, rq, cp, iv⟩ := by
        simp [mkStep, hp]
      rw [hstep]
      exact Nat.le_refl _

/-- Across a whole schedule, an invocation issues at most as many requests
as the schedule invokes it. -/
theorem runCmds_invReq (idq : Nat) : ∀ (cmds : List MkCmd) (sys : MkdirSys),
    countInvRequests idq (runCmds cmds sys) ≤
      countInvRequests idq sys + countInvCalls idq cmds := by
  intro cmds
  induction cmds with
  | nil =>
    intro sys
    simp [runCmds, countInvCalls]
  | cons c cs ih =>
    intro sys
    have h1 := mkStep_invReq sys c idq
    have h2 := ih (mkStep sys c)
    have h3 : countInvCalls idq (c :: cs) = countInvCalls idq [c] + countInvCalls idq cs := by
      cases c with
      | call i2 rp2 => simp [countInvCalls, List.countP_cons]; omega
      | complete p2 out2 => simp [countInvCalls, List.countP_cons]
    have hgoal : runCmds (c :: cs) sys = runCmds cs (mkStep sys c) := rfl
    rw [hgoal, h3]
    omega

/-- Claim C8: mkdir never propagates an error to any caller under any
schedule; each invocation issues at most one network request (none is ever
retried); and consequently a task can only be counted failed because of
the probe, the local hash, or the upload — never because of directory
creation. -/
theorem claim_C8_thm (cmds : List MkCmd) :
    allNoErr (runCmds cmds initSys) = true
    ∧ (∀ idq : Nat, countInvRequests idq (runCmds cmds initSys) ≤ countInvCalls idq cmds)
    ∧ (∀ (mode : SyncCompareMode) (ts : Int) (env : TaskEnv),
        env.mkdirRes = none → processTask mode ts env = TaskOutcome.failedT →
          env.probe = Except.error () ∨ env.md5 = Except.error () ∨
          env.upload = Except.error ()) := by
  refine ⟨runCmds_noErr cmds initSys rfl, ?_, ?_⟩
  · intro idq
    have hbound := runCmds_invReq idq cmds initSys
    simpa [countInvRequests, initSys] using hbound
  · intro mode ts env hm hf
    obtain ⟨mkr, pr, m5, up⟩ := env
    have hm2 : mkr = none := hm
    subst hm2
    cases pr with
    | error e =>
      cases e
      exact Or.inl rfl
    | ok md =>
      by_cases hc : canCompareChecksum mode md = true
      · cases m5 with
        | error e =>
          cases e
          exact Or.inr (Or.inl rfl)
        | ok hsh =>
          cases up with
          | error e =>
            cases e
            exact Or.inr (Or.inr rfl)
          | ok u =>
            by_cases hd : syncDecision mode md ts hsh = true
            · simp [processTask, hc, hd] at hf
            · simp [processTask, hc, hd] at hf
      · cases up with
        | error e =>
          cases e
          exact Or.inr (Or.inr rfl)
        | ok u =>
          by_cases hd : syncDecision mode md ts "" = true
          · simp [processTask, hc, hd] at hf
          · simp [processTask, hc, hd] at hf

/-- Witness for claim C8: a one-call schedule propagates no error and
issues at most one request for invocation 0, and a concrete task whose
probe raises is failed because of the probe. -/
theorem claim_C8_wit :
    allNoErr (runCmds [MkCmd.call 0 "a"] initSys) = true
    ∧ countInvRequests 0 (runCmds [MkCmd.call 0 "a"] initSys) ≤
        countInvCalls 0 [MkCmd.call 0 "a"]
    ∧ ((⟨none, Except.error (), Except.ok "", Except.ok ()⟩ : TaskEnv).probe = Except.error ()
        ∨ (⟨none, Except.error (), Except.ok "", Except.ok ()⟩ : TaskEnv).md5 = Except.error ()
        ∨ (⟨none, Except.error (), Except.ok "", Except.ok ()⟩ : TaskEnv).upload
            = Except.error ()) :=
  ⟨(claim_C8_thm [MkCmd.call 0 "a"]).1,
   (claim_C8_thm [MkCmd.call 0 "a"]).2.1 0,
   (claim_C8_thm []).2.2 SyncCompareMode.size 0
     ⟨none, Except.error (), Except.ok "", Except.ok ()⟩ rfl rfl⟩

end Drive
